import Mathlib

/-!
Verification of the tool-dispatch layer of a small MCP server for a CRM API
(source: src/index.js).  The JavaScript handlers are shallowly embedded:
JSON values become the `Json` inductive, JS objects are modelled as ordered
association lists of unique keys (prototype-chain lookup is not modelled),
fallible JS evaluation becomes `Except String`, and the network is an oracle
`Api : HttpRequest → FetchResponse`.  JS numbers are modelled by exact
rationals `ℚ`; decimal formatting of non-integral numbers and the special
values Infinity/NaN are outside the rational model (NaN arises here only as
the failure of `parseFloat`, which the embedding represents by `Option`).
-/

namespace HubspotMCP

/-- JSON values, as delivered by the HTTP layer and used for tool arguments.
Objects keep field order (JS objects are insertion ordered); keys are assumed
unique, as in a freshly parsed response. -/
inductive Json where
  | null
  | bool (b : Bool)
  | num (q : ℚ)
  | str (s : String)
  | arr (elems : List Json)
  | obj (fields : List (String × Json))

/-- Tool-call arguments: the JS `arguments` object, an ordered dictionary. -/
abbrev Args := List (String × Json)

/-- First-match association-list lookup (JS own-property read on an object
with unique keys). -/
def alookup {β : Type} : List (String × β) → String → Option β
  | [], _ => none
  | (k, v) :: rest, key => if k = key then some v else alookup rest key

/-- JS truthiness of a defined value (`undefined` is handled by callers via
`Option`). -/
def jsTruthy : Json → Bool
  | Json.null => false
  | Json.bool b => b
  | Json.num q => decide (q ≠ 0)
  | Json.str s => decide (s ≠ "")
  | Json.arr _ => true
  | Json.obj _ => true

/-- Rendering of a rational as a JS number string.  Integers render exactly as
in JS; for non-integral values JS decimal formatting is not reproduced (no
theorem below depends on the rendering). -/
def ratToJs (q : ℚ) : String :=
  if q.den = 1 then toString q.num else toString q.num ++ "/" ++ toString q.den

mutual

/-- JS `ToString` coercion of a defined value (template literals, `parseFloat`
argument coercion, property-key coercion). -/
def jsToString : Json → String
  | Json.null => "null"
  | Json.bool b => cond b "true" "false"
  | Json.num q => ratToJs q
  | Json.str s => s
  | Json.arr xs => String.intercalate "," (jsArrElems xs)
  | Json.obj _ => "[object Object]"

/-- `Array.prototype.toString` renders elements recursively, with `null`
rendered as the empty string. -/
def jsArrElems : List Json → List String
  | [] => []
  | Json.null :: rest => "" :: jsArrElems rest
  | j :: rest => jsToString j :: jsArrElems rest

end

/-- JS `ToString` where the value may be `undefined` (e.g. `parseFloat` of a
missing property, `${data.id}` when `id` is absent). -/
def jsToStringU : Option Json → String
  | none => "undefined"
  | some j => jsToString j

/-- `v || d` on a possibly-undefined value `v` (used for `args.limit || 10`,
`args.pipeline || "default"` and the like). -/
def jsOrD (v : Option Json) (d : Json) : Json :=
  match v with
  | some j => if jsTruthy j then j else d
  | none => d

/-- Digits to a natural number, most significant first. -/
def natOfDigits (ds : List Char) : Nat :=
  ds.foldl (fun n c => n * 10 + (c.toNat - 48)) 0

/-- ASCII whitespace skipped by JS `parseFloat` (Unicode space classes are
not modelled). -/
def isJsWs (c : Char) : Bool :=
  c = ' ' ∨ c = '\t' ∨ c = '\n' ∨ c = '\r' ∨ c = '\x0b' ∨ c = '\x0c'

/-- Model of JS `parseFloat` over the rationals: leading whitespace skipped,
optional sign, decimal digits with optional fraction and optional exponent,
parsing the longest valid prefix; `none` models NaN (no parseable prefix).
`Infinity` is outside the rational model and parses as `none`. -/
def parseFloatQ (s : String) : Option ℚ :=
  let cs := s.toList.dropWhile isJsWs
  let sgncs : ℚ × List Char :=
    match cs with
    | c :: rest =>
      if c = '-' then (-1, rest) else if c = '+' then (1, rest) else (1, cs)
    | [] => (1, cs)
  let ipRest := sgncs.2.span Char.isDigit
  let fpRest : List Char × List Char :=
    match ipRest.2 with
    | c :: rest => if c = '.' then rest.span Char.isDigit else ([], ipRest.2)
    | [] => ([], ipRest.2)
  if ipRest.1 = [] ∧ fpRest.1 = [] then none
  else
    let mant : ℚ :=
      (natOfDigits ipRest.1 : ℚ) + (natOfDigits fpRest.1 : ℚ) / (10 : ℚ) ^ fpRest.1.length
    let ex : ℤ :=
      match fpRest.2 with
      | c :: rest =>
        if c = 'e' ∨ c = 'E' then
          let esgnEcs : ℤ × List Char :=
            match rest with
            | d :: r2 =>
              if d = '-' then (-1, r2) else if d = '+' then (1, r2) else (1, rest)
            | [] => (1, rest)
          let eds := (esgnEcs.2.span Char.isDigit).1
          if eds = [] then 0 else esgnEcs.1 * (natOfDigits eds : ℤ)
        else 0
      | [] => 0
    some (sgncs.1 * mant * (10 : ℚ) ^ ex)

def spaces (n : Nat) : String :=
  String.mk (List.replicate n ' ')

/-- Hexadecimal digit for the `\u00XX` escapes of `JSON.stringify`. -/
def hexDigit (n : Nat) : Char :=
  if n < 10 then Char.ofNat (48 + n) else Char.ofNat (87 + n)

/-- One character of a `JSON.stringify` string literal. -/
def escapeChar (c : Char) : String :=
  if c = '"' then "\\\""
  else if c = '\\' then "\\\\"
  else if c = '\n' then "\\n"
  else if c = '\r' then "\\r"
  else if c = '\t' then "\\t"
  else if c.toNat = 8 then "\\b"
  else if c.toNat = 12 then "\\f"
  else if c.toNat < 32 then "\\u00" ++ String.mk [hexDigit (c.toNat / 16), hexDigit (c.toNat % 16)]
  else String.singleton c

/-- `JSON.stringify` rendering of a string. -/
def quoteJs (s : String) : String :=
  "\"" ++ String.join (s.toList.map escapeChar) ++ "\""

mutual

/-- `JSON.stringify(v, null, 2)` at the given current indentation. -/
def stringifyAt : Nat → Json → String
  | _, Json.null => "null"
  | _, Json.bool b => cond b "true" "false"
  | _, Json.num q => ratToJs q
  | _, Json.str s => quoteJs s
  | _, Json.arr [] => "[]"
  | ind, Json.arr (x :: xs) =>
    "[\n" ++ String.intercalate ",\n" (stringifyElems (ind + 2) (x :: xs)) ++ "\n" ++ spaces ind ++ "]"
  | _, Json.obj [] => "\x7b\x7d"
  | ind, Json.obj (f :: fs) =>
    "\x7b\n" ++ String.intercalate ",\n" (stringifyFields (ind + 2) (f :: fs)) ++ "\n" ++ spaces ind ++ "\x7d"

def stringifyElems : Nat → List Json → List String
  | _, [] => []
  | ind, x :: xs => (spaces ind ++ stringifyAt ind x) :: stringifyElems ind xs

def stringifyFields : Nat → List (String × Json) → List String
  | _, [] => []
  | ind, (k, v) :: fs =>
    (spaces ind ++ quoteJs k ++ ": " ++ stringifyAt ind v) :: stringifyFields ind fs

end

/-- `JSON.stringify(v, null, 2)` as used for every pretty-printed payload. -/
def stringify (j : Json) : String :=
  stringifyAt 0 j

/-- A content block of a tool result; in the source always `type: "text"`.
`text = none` models the JS `undefined` produced by `JSON.stringify` of an
undefined value (the not-found pass-through of `get_contact`). -/
structure ContentBlock where
  type : String
  text : Option String
deriving DecidableEq

/-- Result of one tool invocation.  The JS success path omits `isError`,
which reads back as falsy; the model represents that as `isError = false`. -/
structure ToolCallResult where
  content : List ContentBlock
  isError : Bool
deriving DecidableEq

/-- One tool-call request: tool name plus the raw arguments object. -/
structure ToolCallRequest where
  name : String
  arguments : Args

/-- One outbound HTTP request as assembled by `hubspotRequest`: the full URL
(base address ++ endpoint), the method, and the JSON body after
`JSON.stringify` (header construction carries no information relevant to the
claims and is omitted). -/
structure HttpRequest where
  method : String
  url : String
  body : Option Json

/-- The remote end of one `fetch`: a success with a parsed JSON body, a
non-success HTTP status with its body text, or a success whose body fails to
parse as JSON (`response.json()` rejecting). -/
inductive FetchResponse where
  | success (json : Json)
  | httpError (status : Nat) (bodyText : String)
  | invalidJson (msg : String)

/-- The network oracle: what the CRM API answers to each request. -/
abbrev Api := HttpRequest → FetchResponse

def HUBSPOT_API_BASE : String := "https://api.hubapi.com"

def mkRequest (endpoint method : String) (body : Option Json) : HttpRequest :=
  { method := method, url := HUBSPOT_API_BASE ++ endpoint, body := body }

/-- The generic request helper: issues the request, and on a non-success
status fails with the status code and the response body text; no retry. -/
def hubspotRequest (api : Api) (req : HttpRequest) : Except String Json :=
  match api req with
  | FetchResponse.success j => Except.ok j
  | FetchResponse.httpError status body =>
    Except.error ("HubSpot API error: " ++ toString status ++ " - " ++ body)
  | FetchResponse.invalidJson msg => Except.error msg

/-- Object literal whose fields with `undefined` values are dropped, as
`JSON.stringify` drops them from the serialized body. -/
def mkObj (fields : List (String × Option Json)) : Json :=
  Json.obj (fields.filterMap (fun kv => kv.2.map (fun j => (kv.1, j))))

/-- JS property read `j.k` on a defined value: throws on `null`, yields the
own property on an object, `undefined` on any other value. -/
def jsGet (j : Json) (k : String) : Except String (Option Json) :=
  match j with
  | Json.null => Except.error ("TypeError: Cannot read properties of null (reading " ++ k ++ ")")
  | Json.obj fields => Except.ok (alookup fields k)
  | _ => Except.ok none

/-- JS property read where the receiver may be `undefined`. -/
def jsGetU (oj : Option Json) (k : String) : Except String (Option Json) :=
  match oj with
  | none => Except.error ("TypeError: Cannot read properties of undefined (reading " ++ k ++ ")")
  | some j => jsGet j k

/-- The JS expression `x[0]` (used for `searchData.results[0]`): index read on
arrays, key `"0"` on objects, first character on strings. -/
def jsIndex0 : Option Json → Except String (Option Json)
  | none => Except.error "TypeError: Cannot read properties of undefined (reading 0)"
  | some Json.null => Except.error "TypeError: Cannot read properties of null (reading 0)"
  | some (Json.arr xs) => Except.ok xs.head?
  | some (Json.obj fields) => Except.ok (alookup fields "0")
  | some (Json.str s) =>
    Except.ok (match s.toList with
      | [] => none
      | c :: _ => some (Json.str (String.singleton c)))
  | some _ => Except.ok none

/-- The JS call `x.forEach(...)` requires an array; anything else throws. -/
def asForEachList : Option Json → Except String (List Json)
  | none => Except.error "TypeError: Cannot read properties of undefined (reading forEach)"
  | some Json.null => Except.error "TypeError: Cannot read properties of null (reading forEach)"
  | some (Json.arr xs) => Except.ok xs
  | some _ => Except.error "TypeError: forEach is not a function"

/-- The JS expression `x.includes("@")`: substring test on strings, element
test on arrays, a `TypeError` on every other value. -/
def includesAt : Json → Except String Bool
  | Json.null => Except.error "TypeError: Cannot read properties of null (reading includes)"
  | Json.str s => Except.ok (s.toList.contains '@')
  | Json.arr xs =>
    Except.ok (xs.any (fun j => match j with
      | Json.str t => decide (t = "@")
      | _ => false))
  | _ => Except.error "TypeError: includes is not a function"

/-- Per-stage accumulator of the pipeline summary: `{count, totalValue}`. -/
structure StageSummary where
  count : Nat
  totalValue : ℚ
deriving DecidableEq

/-- `deal.properties.dealstage || "Unknown"` coerced to a property key. -/
def stageLabel (st : Option Json) : String :=
  match st with
  | some v => if jsTruthy v then jsToString v else "Unknown"
  | none => "Unknown"

/-- `parseFloat(deal.properties.amount) || 0`. -/
def amountValue (am : Option Json) : ℚ :=
  (parseFloatQ (jsToStringU am)).getD 0

/-- Stage key and amount of one returned deal, with the JS property reads
that can throw on malformed elements. -/
def dealStageAmount (deal : Json) : Except String (String × ℚ) :=
  match jsGet deal "properties" with
  | Except.error e => Except.error e
  | Except.ok props =>
    match jsGetU props "dealstage" with
    | Except.error e => Except.error e
    | Except.ok st =>
      match jsGetU props "amount" with
      | Except.error e => Except.error e
      | Except.ok am => Except.ok (stageLabel st, amountValue am)

/-- The properties every plain object literal inherits from
`Object.prototype`, all of them truthy (functions, and the prototype object
itself behind the `__proto__` accessor).  A stage key naming one of these is
found on the prototype chain by `summary[stage]`. -/
def objectProtoKeys : List String :=
  ["constructor", "hasOwnProperty", "isPrototypeOf", "propertyIsEnumerable",
   "toLocaleString", "toString", "valueOf",
   "__defineGetter__", "__defineSetter__", "__lookupGetter__", "__lookupSetter__",
   "__proto__"]

/-- Own-key update of the `summary` object: create the entry on first sight
of a stage (at the end, JS objects being insertion ordered), then increment
its count and add the amount. -/
def bumpOwn : List (String × StageSummary) → String → ℚ → List (String × StageSummary)
  | [], stage, amt => [(stage, ⟨1, amt⟩)]
  | (s, a) :: rest, stage, amt =>
    if s = stage then (s, ⟨a.count + 1, a.totalValue + amt⟩) :: rest
    else (s, a) :: bumpOwn rest stage amt

/-- One loop iteration on the `summary` object.  The read `summary[stage]`
consults the prototype chain: for a stage key naming a truthy
`Object.prototype` member (e.g. "toString"), `!summary[stage]` is false, so
no own entry is ever created and the subsequent `count++` / `totalValue +=`
mutate the inherited member — invisible in the serialized summary, which
holds own enumerable properties only (the mutated members stay truthy, and
the only values such a deal can plant on the chain are NaN, which is falsy
like the absent value, so later iterations are unaffected).  For every other
stage key the own entry is created and updated as usual. -/
def bump (summ : List (String × StageSummary)) (stage : String) (amt : ℚ) :
    List (String × StageSummary) :=
  if stage ∈ objectProtoKeys then summ else bumpOwn summ stage amt

/-- The `data.results.forEach` aggregation loop with its running `summary`
object and `totalValue`. -/
def aggLoop : List Json → List (String × StageSummary) → ℚ →
    Except String (List (String × StageSummary) × ℚ)
  | [], summ, tv => Except.ok (summ, tv)
  | d :: ds, summ, tv =>
    match dealStageAmount d with
    | Except.error e => Except.error e
    | Except.ok sa => aggLoop ds (bump summ sa.1 sa.2) (tv + sa.2)

/-- Client-side aggregation of `get_pipeline_summary` over the returned
deals. -/
def aggregateDeals (deals : List Json) : Except String (List (String × StageSummary) × ℚ) :=
  aggLoop deals [] 0

/-- The `summary` object as serialized in the tool result. -/
def summaryToJson (summ : List (String × StageSummary)) : Json :=
  Json.obj (summ.map (fun p =>
    (p.1, Json.obj [("count", Json.num p.2.count), ("totalValue", Json.num p.2.totalValue)])))

/-- The single text content block every handler branch returns. -/
def textContent (t : Option String) : List ContentBlock :=
  [{ type := "text", text := t }]

/-- A success result: one text block, no error flag. -/
def okResult (t : Option String) : ToolCallResult :=
  { content := textContent t, isError := false }

/-- One HubSpot search filter, its `value` dropped when the argument it is
drawn from is undefined (as `JSON.stringify` would drop it). -/
def filterJson (prop op : String) (value : Option Json) : Json :=
  mkObj [("propertyName", some (Json.str prop)), ("operator", some (Json.str op)), ("value", value)]

/-- A filter group holding a single filter. -/
def filterGroup1 (prop op : String) (value : Option Json) : Json :=
  Json.obj [("filters", Json.arr [filterJson prop op value])]

def strArr (l : List String) : Json :=
  Json.arr (l.map Json.str)

def contactSearchProps : List String :=
  ["firstname", "lastname", "email", "phone", "company"]

def contactProps6 : List String :=
  ["firstname", "lastname", "email", "phone", "company", "lifecyclestage"]

def dealSearchProps : List String :=
  ["dealname", "amount", "dealstage", "pipeline", "closedate"]

def pipelineProps : List String :=
  ["dealname", "amount", "dealstage"]

/-- The `search_contacts` outbound request: three OR-ed one-filter groups
matching email, firstname and lastname against `args.query`, the five
properties, and `args.limit || 10`. -/
def searchContactsReq (args : Args) : HttpRequest :=
  mkRequest "/crm/v3/objects/contacts/search" "POST" (some (Json.obj [
    ("filterGroups", Json.arr [
      filterGroup1 "email" "CONTAINS_TOKEN" (alookup args "query"),
      filterGroup1 "firstname" "CONTAINS_TOKEN" (alookup args "query"),
      filterGroup1 "lastname" "CONTAINS_TOKEN" (alookup args "query")]),
    ("properties", strArr contactSearchProps),
    ("limit", jsOrD (alookup args "limit") (Json.num 10))]))

def runSearchContacts (args : Args) (api : Api) : Except String ToolCallResult × List HttpRequest :=
  let req := searchContactsReq args
  (match hubspotRequest api req with
   | Except.error e => Except.error e
   | Except.ok data =>
     match jsGet data "results" with
     | Except.error e => Except.error e
     | Except.ok results =>
       Except.ok (okResult (results.map stringify)),
   [req])

/-- The email-branch request of `get_contact`: exact-match search on `email`
with limit 1 and the six properties. -/
def getContactEmailReq (cid : Json) : HttpRequest :=
  mkRequest "/crm/v3/objects/contacts/search" "POST" (some (Json.obj [
    ("filterGroups", Json.arr [filterGroup1 "email" "EQ" (some cid)]),
    ("properties", strArr contactProps6),
    ("limit", Json.num 1)]))

/-- The id-branch request of `get_contact`: direct GET by id with the six
properties comma-joined in the query string. -/
def getContactByIdReq (cid : Json) : HttpRequest :=
  mkRequest ("/crm/v3/objects/contacts/" ++ jsToString cid ++
    "?properties=firstname,lastname,email,phone,company,lifecyclestage") "GET" none

def runGetContact (args : Args) (api : Api) : Except String ToolCallResult × List HttpRequest :=
  match alookup args "contact_id" with
  | none => (Except.error "TypeError: Cannot read properties of undefined (reading includes)", [])
  | some cid =>
    match includesAt cid with
    | Except.error e => (Except.error e, [])
    | Except.ok true =>
      let req := getContactEmailReq cid
      (match hubspotRequest api req with
       | Except.error e => Except.error e
       | Except.ok searchData =>
         match jsGet searchData "results" with
         | Except.error e => Except.error e
         | Except.ok results =>
           match jsIndex0 results with
           | Except.error e => Except.error e
           | Except.ok data =>
             Except.ok (okResult (data.map stringify)),
       [req])
    | Except.ok false =>
      let req := getContactByIdReq cid
      (match hubspotRequest api req with
       | Except.error e => Except.error e
       | Except.ok data =>
         Except.ok (okResult (some (stringify data))),
       [req])

/-- The `create_contact` request: the entire arguments object verbatim as the
new property set. -/
def createContactReq (args : Args) : HttpRequest :=
  mkRequest "/crm/v3/objects/contacts" "POST" (some (Json.obj [("properties", Json.obj args)]))

def runCreateContact (args : Args) (api : Api) : Except String ToolCallResult × List HttpRequest :=
  let req := createContactReq args
  (match hubspotRequest api req with
   | Except.error e => Except.error e
   | Except.ok data =>
     match jsGet data "id" with
     | Except.error e => Except.error e
     | Except.ok idv =>
       Except.ok (okResult (some
         ("Contact created successfully! ID: " ++ jsToStringU idv ++ "\n" ++ stringify data))),
   [req])

/-- `search_deals` filter groups: one exact-match group on `dealstage` when
`args.pipeline_stage` is truthy, none otherwise. -/
def searchDealsFilterGroups (args : Args) : List Json :=
  match alookup args "pipeline_stage" with
  | some v => if jsTruthy v then [filterGroup1 "dealstage" "EQ" (some v)] else []
  | none => []

/-- The `search_deals` request; an empty filter-group list is sent as
`undefined` and therefore dropped from the serialized body. -/
def searchDealsReq (args : Args) : HttpRequest :=
  mkRequest "/crm/v3/objects/deals/search" "POST" (some (mkObj [
    ("filterGroups",
      if (searchDealsFilterGroups args).length > 0
      then some (Json.arr (searchDealsFilterGroups args)) else none),
    ("properties", some (strArr dealSearchProps)),
    ("limit", some (jsOrD (alookup args "limit") (Json.num 20)))]))

def runSearchDeals (args : Args) (api : Api) : Except String ToolCallResult × List HttpRequest :=
  let req := searchDealsReq args
  (match hubspotRequest api req with
   | Except.error e => Except.error e
   | Except.ok data =>
     match jsGet data "results" with
     | Except.error e => Except.error e
     | Except.ok results =>
       Except.ok (okResult (results.map stringify)),
   [req])

/-- The `create_deal` request: the whitelisted property set
`\x7bdealname, amount, dealstage, pipeline\x7d`, absent arguments dropped at
serialization, `pipeline` defaulting to `"default"`. -/
def createDealReq (args : Args) : HttpRequest :=
  mkRequest "/crm/v3/objects/deals" "POST" (some (Json.obj [("properties", mkObj [
    ("dealname", alookup args "dealname"),
    ("amount", alookup args "amount"),
    ("dealstage", alookup args "dealstage"),
    ("pipeline", some (jsOrD (alookup args "pipeline") (Json.str "default")))])]))

def runCreateDeal (args : Args) (api : Api) : Except String ToolCallResult × List HttpRequest :=
  let req := createDealReq args
  (match hubspotRequest api req with
   | Except.error e => Except.error e
   | Except.ok data =>
     match jsGet data "id" with
     | Except.error e => Except.error e
     | Except.ok idv =>
       Except.ok (okResult (some
         ("Deal created successfully! ID: " ++ jsToStringU idv ++ "\n" ++ stringify data))),
   [req])

/-- The `get_pipeline_summary` request: up to 100 deals, no filter. -/
def pipelineSummaryReq : HttpRequest :=
  mkRequest "/crm/v3/objects/deals/search" "POST" (some (Json.obj [
    ("properties", strArr pipelineProps),
    ("limit", Json.num 100)]))

def runGetPipelineSummary (api : Api) : Except String ToolCallResult × List HttpRequest :=
  let req := pipelineSummaryReq
  (match hubspotRequest api req with
   | Except.error e => Except.error e
   | Except.ok data =>
     match jsGet data "results" with
     | Except.error e => Except.error e
     | Except.ok resultsOpt =>
       match asForEachList resultsOpt with
       | Except.error e => Except.error e
       | Except.ok results =>
         match aggregateDeals results with
         | Except.error e => Except.error e
         | Except.ok st =>
           Except.ok (okResult (some ("Pipeline Summary:\n" ++ stringify (Json.obj [
             ("summary", summaryToJson st.1),
             ("totalDeals", Json.num results.length),
             ("totalValue", Json.num st.2)])))),
   [req])

/-- The six advertised tool names, in catalog order. -/
def toolNames : List String :=
  ["search_contacts", "get_contact", "create_contact", "search_deals", "create_deal", "get_pipeline_summary"]

/-- The `switch` of the call-tool handler: translation routine per advertised
name, the default case throwing the unknown-tool error.  Alongside the
outcome it reports the outbound requests issued. -/
def runTool (name : String) (args : Args) (api : Api) : Except String ToolCallResult × List HttpRequest :=
  match name with
  | "search_contacts" => runSearchContacts args api
  | "get_contact" => runGetContact args api
  | "create_contact" => runCreateContact args api
  | "search_deals" => runSearchDeals args api
  | "create_deal" => runCreateDeal args api
  | "get_pipeline_summary" => runGetPipelineSummary api
  | other => (Except.error ("Unknown tool: " ++ other), [])

/-- The catch-all conversion of a failure into a normalized error result. -/
def errorResult (msg : String) : ToolCallResult :=
  { content := textContent (some ("Error: " ++ msg)), isError := true }

/-- The dispatcher: a total function — every failure of the handler body is
caught and converted by `errorResult`, so no exception reaches the caller. -/
def invoke (req : ToolCallRequest) (api : Api) : ToolCallResult × List HttpRequest :=
  match runTool req.name req.arguments api with
  | (Except.ok r, tr) => (r, tr)
  | (Except.error msg, tr) => (errorResult msg, tr)

/-! ### Aggregation infrastructure

`aggLoop` is refactored through the per-deal extraction `dealPairs` and the
pure fold `foldB`, characterized by association-list lookups, so that
permutation invariance and the sum invariants follow. -/

/-- Stage/amount extraction of every deal, left to right, stopping at the
first failing element (as the `forEach` would throw there). -/
def dealPairs : List Json → Except String (List (String × ℚ))
  | [] => Except.ok []
  | d :: ds =>
    match dealStageAmount d with
    | Except.error e => Except.error e
    | Except.ok p =>
      match dealPairs ds with
      | Except.error e => Except.error e
      | Except.ok ps => Except.ok (p :: ps)

/-- The pure summary fold over extracted pairs. -/
def foldB (summ : List (String × StageSummary)) (ps : List (String × ℚ)) :
    List (String × StageSummary) :=
  ps.foldl (fun s p => bump s p.1 p.2) summ

/-- Sum of the extracted amounts. -/
def sumSnd (ps : List (String × ℚ)) : ℚ :=
  (ps.map Prod.snd).sum

theorem aggLoop_eq (ds : List Json) : ∀ (summ : List (String × StageSummary)) (tv : ℚ),
    aggLoop ds summ tv =
      match dealPairs ds with
      | Except.error e => Except.error e
      | Except.ok ps => Except.ok (foldB summ ps, tv + sumSnd ps) := by
  induction ds with
  | nil => intro summ tv; simp [aggLoop, dealPairs, foldB, sumSnd]
  | cons d ds ih =>
    intro summ tv
    cases hd : dealStageAmount d with
    | error e => simp [aggLoop, dealPairs, hd]
    | ok p =>
      simp only [aggLoop, dealPairs, hd]
      rw [ih]
      cases hp : dealPairs ds with
      | error e => simp
      | ok ps => simp [foldB, sumSnd, add_assoc]

theorem dealPairs_length : ∀ {ds : List Json} {ps : List (String × ℚ)},
    dealPairs ds = Except.ok ps → ps.length = ds.length := by
  intro ds
  induction ds with
  | nil => intro ps h; simp [dealPairs] at h; simp [← h]
  | cons d ds ih =>
    intro ps h
    simp only [dealPairs] at h
    cases hd : dealStageAmount d with
    | error e => rw [hd] at h; cases h
    | ok p =>
      rw [hd] at h
      cases hp : dealPairs ds with
      | error e => rw [hp] at h; cases h
      | ok ps0 =>
        rw [hp] at h
        cases h
        simp [ih hp]

/-- Every extracted pair comes from a deal of the list. -/
theorem dealPairs_mem : ∀ {ds : List Json} {ps : List (String × ℚ)},
    dealPairs ds = Except.ok ps →
    ∀ p ∈ ps, ∃ d ∈ ds, dealStageAmount d = Except.ok p := by
  intro ds
  induction ds with
  | nil =>
    intro ps h
    simp [dealPairs] at h
    subst h
    simp
  | cons d ds ih =>
    intro ps h
    simp only [dealPairs] at h
    cases hd : dealStageAmount d with
    | error e => rw [hd] at h; cases h
    | ok p0 =>
      rw [hd] at h
      cases hp : dealPairs ds with
      | error e => rw [hp] at h; cases h
      | ok ps0 =>
        rw [hp] at h
        cases h
        intro p hpmem
        rcases List.mem_cons.mp hpmem with h | h
        · exact ⟨d, List.mem_cons_self d ds, h ▸ hd⟩
        · obtain ⟨d0, hd0, hda⟩ := ih hp p h
          exact ⟨d0, List.mem_cons_of_mem d hd0, hda⟩

theorem dealPairs_perm {ds ds' : List Json} (h : List.Perm ds ds') :
    ∀ ps, dealPairs ds = Except.ok ps →
      ∃ ps', dealPairs ds' = Except.ok ps' ∧ List.Perm ps ps' := by
  induction h with
  | nil => exact fun ps h => ⟨ps, h, List.Perm.refl _⟩
  | cons x _ ih =>
    intro ps hps
    simp only [dealPairs] at hps
    split at hps
    · cases hps
    · rename_i p hx
      split at hps
      · cases hps
      · rename_i ps0 hl
        cases hps
        obtain ⟨ps1, hps1, hperm1⟩ := ih ps0 hl
        exact ⟨p :: ps1, by simp [dealPairs, hx, hps1], List.Perm.cons p hperm1⟩
  | swap x y l =>
    intro ps hps
    simp only [dealPairs] at hps
    split at hps
    · cases hps
    · rename_i py hy
      split at hps
      · cases hps
      · rename_i px hx
        cases hps
        split at hx
        · cases hx
        · rename_i p hx2
          split at hx
          · cases hx
          · rename_i ps0 hl
            cases hx
            exact ⟨p :: py :: ps0, by simp [dealPairs, hx2, hy, hl], List.Perm.swap p py ps0⟩
  | trans _ _ ih1 ih2 =>
    intro ps hps
    obtain ⟨ps2, h2, p2⟩ := ih1 ps hps
    obtain ⟨ps3, h3, p3⟩ := ih2 ps2 h2
    exact ⟨ps3, h3, p2.trans p3⟩

theorem alookup_bumpOwn_self (summ : List (String × StageSummary)) (st : String) (amt : ℚ) :
    alookup (bumpOwn summ st amt) st =
      some (match alookup summ st with
            | some a => ⟨a.count + 1, a.totalValue + amt⟩
            | none => ⟨1, amt⟩) := by
  induction summ with
  | nil => simp [bumpOwn, alookup]
  | cons p rest ih =>
    obtain ⟨s, a⟩ := p
    by_cases hs : s = st
    · subst hs; simp [bumpOwn, alookup]
    · simp [bumpOwn, alookup, hs, ih]

theorem alookup_bumpOwn_ne (summ : List (String × StageSummary)) (st st' : String) (amt : ℚ)
    (h : st' ≠ st) : alookup (bumpOwn summ st amt) st' = alookup summ st' := by
  induction summ with
  | nil => simp [bumpOwn, alookup, Ne.symm h]
  | cons p rest ih =>
    obtain ⟨s, a⟩ := p
    by_cases hs : s = st
    · subst hs; simp [bumpOwn, alookup, Ne.symm h]
    · by_cases hs' : s = st'
      · subst hs'; simp [bumpOwn, alookup, hs]
      · simp [bumpOwn, alookup, hs, hs', ih]

/-- A prototype-colliding stage key leaves the summary object unchanged. -/
theorem bump_proto (summ : List (String × StageSummary)) (st : String) (amt : ℚ)
    (hst : st ∈ objectProtoKeys) : bump summ st amt = summ := by
  unfold bump
  rw [if_pos hst]

theorem alookup_bump_self (summ : List (String × StageSummary)) (st : String) (amt : ℚ)
    (hst : st ∉ objectProtoKeys) :
    alookup (bump summ st amt) st =
      some (match alookup summ st with
            | some a => ⟨a.count + 1, a.totalValue + amt⟩
            | none => ⟨1, amt⟩) := by
  unfold bump
  rw [if_neg hst]
  exact alookup_bumpOwn_self summ st amt

theorem alookup_bump_ne (summ : List (String × StageSummary)) (st st' : String) (amt : ℚ)
    (h : st' ≠ st) : alookup (bump summ st amt) st' = alookup summ st' := by
  unfold bump
  split
  · rfl
  · exact alookup_bumpOwn_ne summ st st' amt h

/-- Deals carrying stage `st` among the extracted pairs. -/
def keyCount (ps : List (String × ℚ)) (st : String) : Nat :=
  (ps.filter (fun p => decide (p.1 = st))).length

/-- Total amount of the deals carrying stage `st`. -/
def keyTotal (ps : List (String × ℚ)) (st : String) : ℚ :=
  ((ps.filter (fun p => decide (p.1 = st))).map Prod.snd).sum

theorem alookup_foldB (st : String) (hst : st ∉ objectProtoKeys) (ps : List (String × ℚ)) :
    ∀ summ : List (String × StageSummary),
    alookup (foldB summ ps) st =
      match alookup summ st with
      | some a => some ⟨a.count + keyCount ps st, a.totalValue + keyTotal ps st⟩
      | none =>
        if keyCount ps st = 0 then none
        else some ⟨keyCount ps st, keyTotal ps st⟩ := by
  induction ps with
  | nil =>
    intro summ
    rcases h : alookup summ st with _ | ⟨c, v⟩ <;>
      simp [foldB, keyCount, keyTotal, h]
  | cons p ps ih =>
    intro summ
    obtain ⟨q, amt⟩ := p
    have hfold : foldB summ ((q, amt) :: ps) = foldB (bump summ q amt) ps := rfl
    rw [hfold, ih]
    by_cases hq : q = st
    · subst hq
      rw [alookup_bump_self summ q amt hst]
      rcases h : alookup summ q with _ | ⟨c, v⟩
      · simp [keyCount, keyTotal, h, List.filter_cons]
        omega
      · simp [keyCount, keyTotal, h, List.filter_cons]
        exact ⟨by omega, by ring⟩
    · rw [alookup_bump_ne _ _ _ _ (fun he => hq he.symm)]
      have hkc : keyCount ((q, amt) :: ps) st = keyCount ps st := by
        simp [keyCount, List.filter_cons, hq]
      have hkt : keyTotal ((q, amt) :: ps) st = keyTotal ps st := by
        simp [keyTotal, List.filter_cons, hq]
      rw [hkc, hkt]

/-- A prototype-colliding stage never acquires an own summary entry. -/
theorem alookup_foldB_proto (st : String) (hst : st ∈ objectProtoKeys) (ps : List (String × ℚ)) :
    ∀ summ : List (String × StageSummary),
    alookup (foldB summ ps) st = alookup summ st := by
  induction ps with
  | nil => intro summ; rfl
  | cons p ps ih =>
    intro summ
    obtain ⟨q, amt⟩ := p
    have hfold : foldB summ ((q, amt) :: ps) = foldB (bump summ q amt) ps := rfl
    rw [hfold, ih]
    by_cases hq : q = st
    · subst hq; rw [bump_proto summ q amt hst]
    · exact alookup_bump_ne summ q st amt (fun he => hq he.symm)

/-- Sum of the per-stage counts of a summary object. -/
def countSum (summ : List (String × StageSummary)) : Nat :=
  (summ.map (fun p => p.2.count)).sum

/-- Sum of the per-stage total values of a summary object. -/
def valueSum (summ : List (String × StageSummary)) : ℚ :=
  (summ.map (fun p => p.2.totalValue)).sum

theorem countSum_bumpOwn (summ : List (String × StageSummary)) (st : String) (amt : ℚ) :
    countSum (bumpOwn summ st amt) = countSum summ + 1 := by
  induction summ with
  | nil => simp [bumpOwn, countSum]
  | cons p rest ih =>
    obtain ⟨s, a⟩ := p
    by_cases hs : s = st
    · subst hs; simp [bumpOwn, countSum]; omega
    · simp only [bumpOwn, if_neg hs, countSum, List.map_cons, List.sum_cons] at ih ⊢
      omega

theorem valueSum_bumpOwn (summ : List (String × StageSummary)) (st : String) (amt : ℚ) :
    valueSum (bumpOwn summ st amt) = valueSum summ + amt := by
  induction summ with
  | nil => simp [bumpOwn, valueSum]
  | cons p rest ih =>
    obtain ⟨s, a⟩ := p
    by_cases hs : s = st
    · subst hs; simp [bumpOwn, valueSum]; ring
    · simp only [bumpOwn, if_neg hs, valueSum, List.map_cons, List.sum_cons] at ih ⊢
      rw [ih]; ring

/-- The extracted pairs whose stage key is an own (non-prototype) key — the
only ones that reach the serialized summary. -/
def ownPairs (ps : List (String × ℚ)) : List (String × ℚ) :=
  ps.filter (fun p => decide (p.1 ∉ objectProtoKeys))

theorem countSum_foldB (ps : List (String × ℚ)) :
    ∀ summ, countSum (foldB summ ps) = countSum summ + (ownPairs ps).length := by
  induction ps with
  | nil => intro summ; simp [foldB, ownPairs]
  | cons p ps ih =>
    intro summ
    have hfold : foldB summ (p :: ps) = foldB (bump summ p.1 p.2) ps := rfl
    rw [hfold, ih]
    by_cases hp : p.1 ∈ objectProtoKeys
    · rw [bump_proto _ _ _ hp]
      have hop : ownPairs (p :: ps) = ownPairs ps := by
        simp [ownPairs, List.filter_cons, hp]
      rw [hop]
    · have hb : bump summ p.1 p.2 = bumpOwn summ p.1 p.2 := by
        unfold bump; rw [if_neg hp]
      have hop : ownPairs (p :: ps) = p :: ownPairs ps := by
        simp [ownPairs, List.filter_cons, hp]
      rw [hb, countSum_bumpOwn, hop]
      simp; omega

theorem valueSum_foldB (ps : List (String × ℚ)) :
    ∀ summ, valueSum (foldB summ ps) = valueSum summ + sumSnd (ownPairs ps) := by
  induction ps with
  | nil => intro summ; simp [foldB, ownPairs, sumSnd]
  | cons p ps ih =>
    intro summ
    have hfold : foldB summ (p :: ps) = foldB (bump summ p.1 p.2) ps := rfl
    rw [hfold, ih]
    by_cases hp : p.1 ∈ objectProtoKeys
    · rw [bump_proto _ _ _ hp]
      have hop : ownPairs (p :: ps) = ownPairs ps := by
        simp [ownPairs, List.filter_cons, hp]
      rw [hop]
    · have hb : bump summ p.1 p.2 = bumpOwn summ p.1 p.2 := by
        unfold bump; rw [if_neg hp]
      have hop : ownPairs (p :: ps) = p :: ownPairs ps := by
        simp [ownPairs, List.filter_cons, hp]
      rw [hb, valueSum_bumpOwn, hop]
      simp [sumSnd]; ring

/-- Success of the aggregation transported along a permutation of the
returned deals: the summary object of the permuted run answers every stage
lookup identically, and the grand total is unchanged. -/
theorem aggregate_perm {ds ds' : List Json} (h : List.Perm ds ds')
    {S : List (String × StageSummary)} {T : ℚ}
    (hok : aggregateDeals ds = Except.ok (S, T)) :
    ∃ S' T', aggregateDeals ds' = Except.ok (S', T') ∧
      (∀ st, alookup S' st = alookup S st) ∧ T' = T := by
  rw [aggregateDeals, aggLoop_eq] at hok
  rcases hps : dealPairs ds with e | ps
  · rw [hps] at hok; cases hok
  · rw [hps] at hok
    obtain ⟨ps', hps', hperm⟩ := dealPairs_perm h ps hps
    have hS : S = foldB [] ps ∧ T = 0 + sumSnd ps := by
      cases hok; exact ⟨rfl, rfl⟩
    obtain ⟨hS1, hS2⟩ := hS
    refine ⟨foldB [] ps', 0 + sumSnd ps', ?_, ?_, ?_⟩
    · rw [aggregateDeals, aggLoop_eq, hps']
    · intro st
      by_cases hst : st ∈ objectProtoKeys
      · rw [hS1, alookup_foldB_proto st hst ps', alookup_foldB_proto st hst ps]
      · rw [hS1, alookup_foldB st hst ps', alookup_foldB st hst ps]
        have hc : keyCount ps' st = keyCount ps st := by
          unfold keyCount
          exact ((hperm.filter _).length_eq).symm
        have ht : keyTotal ps' st = keyTotal ps st := by
          unfold keyTotal
          exact (((hperm.filter _).map Prod.snd).sum_eq).symm
        rw [hc, ht]
    · rw [hS2]
      have hsum : sumSnd ps' = sumSnd ps := by
        unfold sumSnd
        exact ((hperm.map Prod.snd).sum_eq).symm
      rw [hsum]

/-- The three deals of the pipeline-summary example. -/
def d1c : Json :=
  Json.obj [("properties", Json.obj [("dealstage", Json.str "won"), ("amount", Json.str "100")])]

def d2c : Json :=
  Json.obj [("properties", Json.obj [("dealstage", Json.str "won"), ("amount", Json.str "50")])]

def d3c : Json :=
  Json.obj [("properties", Json.obj [("dealstage", Json.str ""), ("amount", Json.str "bad")])]

theorem jsToString_str (s : String) : jsToString (Json.str s) = s := by
  simp [jsToString]

theorem dealStageAmount_d1 : dealStageAmount d1c = Except.ok ("won", 100) := by
  simp [dealStageAmount, d1c, jsGet, jsGetU, alookup, stageLabel, jsTruthy, jsToString_str,
    amountValue, jsToStringU, parseFloatQ, natOfDigits, isJsWs]

theorem dealStageAmount_d2 : dealStageAmount d2c = Except.ok ("won", 50) := by
  simp [dealStageAmount, d2c, jsGet, jsGetU, alookup, stageLabel, jsTruthy, jsToString_str,
    amountValue, jsToStringU, parseFloatQ, natOfDigits, isJsWs]

theorem dealStageAmount_d3 : dealStageAmount d3c = Except.ok ("Unknown", 0) := by
  simp [dealStageAmount, d3c, jsGet, jsGetU, alookup, stageLabel, jsTruthy, jsToString_str,
    amountValue, jsToStringU, parseFloatQ, natOfDigits, isJsWs]

theorem aggregate_concrete :
    aggregateDeals [d1c, d2c, d3c]
      = Except.ok ([("won", ⟨2, 150⟩), ("Unknown", ⟨1, 0⟩)], 150) := by
  simp [aggregateDeals, aggLoop, dealStageAmount_d1, dealStageAmount_d2, dealStageAmount_d3,
    bump, bumpOwn, objectProtoKeys]
  norm_num

/-! ### Dispatcher infrastructure -/

theorem runSearchContacts_shape (args : Args) (api : Api) (r : ToolCallResult)
    (h : (runSearchContacts args api).1 = Except.ok r) : ∃ t, r = okResult t := by
  unfold runSearchContacts at h
  dsimp only at h
  split at h
  · cases h
  · split at h
    · cases h
    · exact ⟨_, ((Except.ok.injEq _ _).mp h).symm⟩

theorem runGetContact_shape (args : Args) (api : Api) (r : ToolCallResult)
    (h : (runGetContact args api).1 = Except.ok r) : ∃ t, r = okResult t := by
  unfold runGetContact at h
  split at h
  · cases h
  · split at h
    · cases h
    · dsimp only at h
      split at h
      · cases h
      · split at h
        · cases h
        · split at h
          · cases h
          · exact ⟨_, ((Except.ok.injEq _ _).mp h).symm⟩
    · dsimp only at h
      split at h
      · cases h
      · exact ⟨_, ((Except.ok.injEq _ _).mp h).symm⟩

theorem runCreateContact_shape (args : Args) (api : Api) (r : ToolCallResult)
    (h : (runCreateContact args api).1 = Except.ok r) : ∃ t, r = okResult t := by
  unfold runCreateContact at h
  dsimp only at h
  split at h
  · cases h
  · split at h
    · cases h
    · exact ⟨_, ((Except.ok.injEq _ _).mp h).symm⟩

theorem runSearchDeals_shape (args : Args) (api : Api) (r : ToolCallResult)
    (h : (runSearchDeals args api).1 = Except.ok r) : ∃ t, r = okResult t := by
  unfold runSearchDeals at h
  dsimp only at h
  split at h
  · cases h
  · split at h
    · cases h
    · exact ⟨_, ((Except.ok.injEq _ _).mp h).symm⟩

theorem runCreateDeal_shape (args : Args) (api : Api) (r : ToolCallResult)
    (h : (runCreateDeal args api).1 = Except.ok r) : ∃ t, r = okResult t := by
  unfold runCreateDeal at h
  dsimp only at h
  split at h
  · cases h
  · split at h
    · cases h
    · exact ⟨_, ((Except.ok.injEq _ _).mp h).symm⟩

theorem runGetPipelineSummary_shape (api : Api) (r : ToolCallResult)
    (h : (runGetPipelineSummary api).1 = Except.ok r) : ∃ t, r = okResult t := by
  unfold runGetPipelineSummary at h
  dsimp only at h
  split at h
  · cases h
  · split at h
    · cases h
    · split at h
      · cases h
      · split at h
        · cases h
        · exact ⟨_, ((Except.ok.injEq _ _).mp h).symm⟩

/-- Every successful dispatch outcome is a single-text-block success
result. -/
theorem runTool_ok_shape (nm : String) (args : Args) (api : Api) (r : ToolCallResult)
    (h : (runTool nm args api).1 = Except.ok r) : ∃ t, r = okResult t := by
  unfold runTool at h
  split at h
  · exact runSearchContacts_shape _ _ _ h
  · exact runGetContact_shape _ _ _ h
  · exact runCreateContact_shape _ _ _ h
  · exact runSearchDeals_shape _ _ _ h
  · exact runCreateDeal_shape _ _ _ h
  · exact runGetPipelineSummary_shape _ _ h
  · cases h

/-- Every dispatch issues no request or exactly one. -/
theorem runTool_reqs (nm : String) (args : Args) (api : Api) :
    (runTool nm args api).2 = [] ∨ ∃ q, (runTool nm args api).2 = [q] := by
  unfold runTool
  split
  · right; exact ⟨_, rfl⟩
  · unfold runGetContact
    split
    · left; rfl
    · split
      · left; rfl
      · right; exact ⟨_, rfl⟩
      · right; exact ⟨_, rfl⟩
  · right; exact ⟨_, rfl⟩
  · right; exact ⟨_, rfl⟩
  · right; exact ⟨_, rfl⟩
  · right; exact ⟨_, rfl⟩
  · left; rfl

/-- A tool name outside the catalog falls through to the default case. -/
theorem runTool_unknown (nm : String) (args : Args) (api : Api) (h : nm ∉ toolNames) :
    runTool nm args api = (Except.error ("Unknown tool: " ++ nm), []) := by
  unfold runTool
  split
  all_goals first
    | rfl
    | (exfalso; apply h; simp [toolNames, *])

/-- When every outbound call fails with message `M`, any dispatch that issues
a request fails with `M` after exactly that one request. -/
theorem runTool_fail (nm : String) (args : Args) (api : Api) (M : String)
    (hf : ∀ q, hubspotRequest api q = Except.error M) :
    (runTool nm args api).2 = [] ∨
      ((runTool nm args api).1 = Except.error M ∧ ∃ q, (runTool nm args api).2 = [q]) := by
  unfold runTool
  split
  · right; exact ⟨by simp [runSearchContacts, hf], _, rfl⟩
  · unfold runGetContact
    split
    · left; rfl
    · split
      · left; rfl
      · right; exact ⟨by simp [hf], _, rfl⟩
      · right; exact ⟨by simp [hf], _, rfl⟩
  · right; exact ⟨by simp [runCreateContact, hf], _, rfl⟩
  · right; exact ⟨by simp [runSearchDeals, hf], _, rfl⟩
  · right; exact ⟨by simp [runCreateDeal, hf], _, rfl⟩
  · right; exact ⟨by simp [runGetPipelineSummary, hf], _, rfl⟩
  · left; rfl

theorem invoke_snd (nm : String) (args : Args) (api : Api) :
    (invoke ⟨nm, args⟩ api).2 = (runTool nm args api).2 := by
  unfold invoke
  dsimp only
  rcases hr : runTool nm args api with ⟨res, tr⟩
  cases res <;> rfl

theorem invoke_fst_ok (nm : String) (args : Args) (api : Api) (r : ToolCallResult)
    (h : (runTool nm args api).1 = Except.ok r) :
    (invoke ⟨nm, args⟩ api).1 = r := by
  unfold invoke
  dsimp only
  rcases hr : runTool nm args api with ⟨res, tr⟩
  rw [hr] at h
  cases res with
  | error e => cases h
  | ok r0 => simp at h; subst h; rfl

theorem invoke_fst_error (nm : String) (args : Args) (api : Api) (msg : String)
    (h : (runTool nm args api).1 = Except.error msg) :
    (invoke ⟨nm, args⟩ api).1 = errorResult msg := by
  unfold invoke
  dsimp only
  rcases hr : runTool nm args api with ⟨res, tr⟩
  rw [hr] at h
  cases res with
  | error e => simp at h; subst h; rfl
  | ok r0 => cases h

/-! ### Oracles used by concrete instances -/

/-- An oracle answering every request with `{"results": []}`. -/
def resultsApi : Api :=
  fun _ => FetchResponse.success (Json.obj [("results", Json.arr [])])

/-- An oracle answering every request with a well-formed success payload
`{"results": [], "id": "1"}`. -/
def successApi : Api :=
  fun _ => FetchResponse.success (Json.obj [("results", Json.arr []), ("id", Json.str "1")])

/-! ### The claims -/

/-- Claim C1: the dispatcher is a total function (`invoke` never raises by
construction); every failure is returned as a result whose content is the
single text block `"Error: " ++ message` with `isError = true`, and an
unknown tool name yields the failure message `"Unknown tool: <name>"`. -/
theorem claim_C1 (nm : String) (args : Args) (api : Api) :
    (∀ msg, (runTool nm args api).1 = Except.error msg →
      (invoke ⟨nm, args⟩ api).1 =
        { content := [{ type := "text", text := some ("Error: " ++ msg) }], isError := true }) ∧
    ((invoke ⟨nm, args⟩ api).1.isError = true →
      ∃ msg, (invoke ⟨nm, args⟩ api).1 =
        { content := [{ type := "text", text := some ("Error: " ++ msg) }], isError := true }) ∧
    (nm ∉ toolNames →
      (invoke ⟨nm, args⟩ api).1 =
        { content := [{ type := "text", text := some ("Error: " ++ ("Unknown tool: " ++ nm)) }],
          isError := true }) := by
  refine ⟨?_, ?_, ?_⟩
  · intro msg hres
    rw [invoke_fst_error nm args api msg hres]
    rfl
  · intro hisErr
    rcases hres : (runTool nm args api).1 with msg | r
    · refine ⟨msg, ?_⟩
      rw [invoke_fst_error nm args api msg hres]
      rfl
    · obtain ⟨t, ht⟩ := runTool_ok_shape nm args api r hres
      rw [invoke_fst_ok nm args api r hres, ht] at hisErr
      simp [okResult] at hisErr
  · intro hnm
    have h := runTool_unknown nm args api hnm
    have h1 : (runTool nm args api).1 = Except.error ("Unknown tool: " ++ nm) := by rw [h]
    rw [invoke_fst_error nm args api _ h1]
    rfl

/-- Witness for C1 at the unknown name of the spec example. -/
theorem claim_C1_witness :
    (invoke ⟨"unknown_tool", []⟩ resultsApi).1 =
      { content := [{ type := "text", text := some ("Error: Unknown tool: unknown_tool") }],
        isError := true } := by
  have h := (claim_C1 "unknown_tool" [] resultsApi).2.2 (by decide)
  exact h.trans (by rfl)

/-- Claim C9: every result of the dispatcher, on the success and on the error
path alike, carries exactly one content block, of type text. -/
theorem claim_C9 (nm : String) (args : Args) (api : Api) :
    ∃ t, (invoke ⟨nm, args⟩ api).1.content = [{ type := "text", text := t }] := by
  rcases hres : (runTool nm args api).1 with msg | r
  · rw [invoke_fst_error nm args api msg hres]
    exact ⟨some ("Error: " ++ msg), rfl⟩
  · obtain ⟨t, ht⟩ := runTool_ok_shape nm args api r hres
    rw [invoke_fst_ok nm args api r hres, ht]
    exact ⟨t, rfl⟩

/-- Claim C2: on the three example deals, in any order, the summary maps
"won" to count 2 / total 150 and "Unknown" to count 1 / total 0, with three
deals and grand total 150; and in general the stage label falls back to
"Unknown" on an absent or empty stage field, the amount to 0 when missing or
unparable. -/
theorem claim_C2 :
    (∀ l : List Json, List.Perm l [d1c, d2c, d3c] →
      ∃ S T, aggregateDeals l = Except.ok (S, T) ∧
        alookup S "won" = some ⟨2, 150⟩ ∧
        alookup S "Unknown" = some ⟨1, 0⟩ ∧
        l.length = 3 ∧ T = 150) ∧
    (∀ st : Option Json, st = none ∨ st = some (Json.str "") → stageLabel st = "Unknown") ∧
    (∀ am : Option Json, am = none ∨ parseFloatQ (jsToStringU am) = none → amountValue am = 0) := by
  refine ⟨?_, ?_, ?_⟩
  · intro l hl
    obtain ⟨S, T, h1, h2, h3⟩ := aggregate_perm hl.symm aggregate_concrete
    refine ⟨S, T, h1, ?_, ?_, ?_, h3⟩
    · rw [h2]; rfl
    · rw [h2]; rfl
    · rw [hl.length_eq]; rfl
  · intro st hst
    rcases hst with h | h <;> subst h <;> rfl
  · intro am ham
    rcases ham with h | h
    · subst h; rfl
    · simp [amountValue, h]

/-- Witness for C2 at a reordering of the three example deals, an empty
stage and a missing amount. -/
theorem claim_C2_witness :
    (∃ S T, aggregateDeals [d3c, d1c, d2c] = Except.ok (S, T) ∧
      alookup S "won" = some ⟨2, 150⟩ ∧
      alookup S "Unknown" = some ⟨1, 0⟩ ∧
      [d3c, d1c, d2c].length = 3 ∧ T = 150) ∧
    stageLabel (some (Json.str "")) = "Unknown" ∧
    amountValue none = 0 := by
  refine ⟨claim_C2.1 [d3c, d1c, d2c] ?_, claim_C2.2.1 _ (Or.inr rfl), claim_C2.2.2 _ (Or.inl rfl)⟩
  exact (List.Perm.swap d1c d3c [d2c]).trans (List.Perm.cons d1c (List.Perm.swap d2c d3c []))

/-- Claim C3: the aggregation is order independent — a permutation of the
returned deals aggregates to the same per-stage lookups, deal count and
grand total (exactly, amounts being modelled by rationals). -/
theorem claim_C3 (ds ds' : List Json) (hperm : List.Perm ds ds')
    (S : List (String × StageSummary)) (T : ℚ)
    (h : aggregateDeals ds = Except.ok (S, T)) :
    ∃ S' T', aggregateDeals ds' = Except.ok (S', T') ∧
      (∀ st, alookup S' st = alookup S st) ∧ ds'.length = ds.length ∧ T' = T := by
  obtain ⟨S', T', h1, h2, h3⟩ := aggregate_perm hperm h
  exact ⟨S', T', h1, h2, hperm.length_eq.symm, h3⟩

/-- Witness for C3 at a transposition of the example deals. -/
theorem claim_C3_witness :
    ∃ S' T', aggregateDeals [d2c, d1c, d3c] = Except.ok (S', T') ∧
      (∀ st, alookup S' st = alookup [("won", ⟨2, 150⟩), ("Unknown", ⟨1, 0⟩)] st) ∧
      [d2c, d1c, d3c].length = [d1c, d2c, d3c].length ∧ T' = 150 :=
  claim_C3 [d1c, d2c, d3c] [d2c, d1c, d3c] (List.Perm.swap d2c d1c [d3c]) _ _ aggregate_concrete

/-- A deal whose stage label collides with a prototype member. -/
def dtc : Json :=
  Json.obj [("properties", Json.obj [("dealstage", Json.str "toString"), ("amount", Json.str "5")])]

theorem dealStageAmount_dt : dealStageAmount dtc = Except.ok ("toString", 5) := by
  simp [dealStageAmount, dtc, jsGet, jsGetU, alookup, stageLabel, jsTruthy, jsToString_str,
    amountValue, jsToStringU, parseFloatQ, natOfDigits, isJsWs]

/-- Claim C10, counterexample: a single deal with dealstage "toString" and
amount "5" finds the inherited (truthy) `Object.prototype.toString` at
`summary[stage]`, so no own stage entry is ever created, while the grand
total still accumulates the amount: the run yields summary `[]`, one deal
and grand total 5, refuting both conjuncts of the claim. -/
theorem claim_C10_counterexample :
    aggregateDeals [dtc] = Except.ok ([], 5) ∧
    ¬((5 : ℚ) = valueSum [] ∧
      [dtc].length = countSum ([] : List (String × StageSummary))) := by
  constructor
  · simp [aggregateDeals, aggLoop, dealStageAmount_dt, bump, objectProtoKeys]
  · rintro ⟨h1, h2⟩
    norm_num [valueSum] at h1

/-- Claim C10 as amended: whenever every deal resolves to a stage label that
is not a member of `Object.prototype` (such as "toString"), the grand total
equals the sum of the per-stage totals and the reported deal count equals
the sum of the per-stage counts — each deal then counted in exactly one
stage — computing with exact rational amounts (in IEEE floats the two sums
may differ by rounding, which the amendment brackets).  A
prototype-colliding deal instead reaches no stage entry while still adding
to the grand total, as the counterexample shows. -/
theorem claim_C10_amended (ds : List Json) (S : List (String × StageSummary)) (T : ℚ)
    (h : aggregateDeals ds = Except.ok (S, T))
    (hst : ∀ d ∈ ds, ∀ p : String × ℚ, dealStageAmount d = Except.ok p →
      p.1 ∉ objectProtoKeys) :
    T = valueSum S ∧ ds.length = countSum S := by
  rw [aggregateDeals, aggLoop_eq] at h
  rcases hps : dealPairs ds with e | ps
  · rw [hps] at h; cases h
  · rw [hps] at h
    have hS : S = foldB [] ps ∧ T = 0 + sumSnd ps := by cases h; exact ⟨rfl, rfl⟩
    obtain ⟨h1, h2⟩ := hS
    have hown : ownPairs ps = ps := by
      apply List.filter_eq_self.mpr
      intro p hp
      obtain ⟨d, hd, hdp⟩ := dealPairs_mem hps p hp
      exact decide_eq_true (hst d hd p hdp)
    constructor
    · rw [h1, valueSum_foldB, hown, h2]
      simp [valueSum]
    · rw [h1, countSum_foldB, hown]
      simp [countSum, dealPairs_length hps]

/-- Witness for the amended C10 at the example deals, whose stages "won" and
"Unknown" are ordinary keys. -/
theorem claim_C10_amended_witness :
    (150 : ℚ) = valueSum [("won", ⟨2, 150⟩), ("Unknown", ⟨1, 0⟩)] ∧
    [d1c, d2c, d3c].length = countSum [("won", ⟨2, 150⟩), ("Unknown", ⟨1, 0⟩)] := by
  refine claim_C10_amended _ _ _ aggregate_concrete ?_
  intro d hd p hp
  simp only [List.mem_cons, List.not_mem_nil, or_false] at hd
  rcases hd with h | h | h
  · subst h; rw [dealStageAmount_d1] at hp; cases hp; decide
  · subst h; rw [dealStageAmount_d2] at hp; cases hp; decide
  · subst h; rw [dealStageAmount_d3] at hp; cases hp; decide

/-- Claim C4: with every outbound call answered by a non-success status, any
tool invocation that reaches the network returns the error result carrying
the status code and body text after exactly one request; and no dispatch ever
issues more than one request (no retry). -/
theorem claim_C4 (nm : String) (args : Args) (st : Nat) (bd : String) :
    (∀ q : HttpRequest, hubspotRequest (fun _ => FetchResponse.httpError st bd) q =
      Except.error ("HubSpot API error: " ++ toString st ++ " - " ++ bd)) ∧
    ((invoke ⟨nm, args⟩ (fun _ => FetchResponse.httpError st bd)).2 ≠ [] →
      (invoke ⟨nm, args⟩ (fun _ => FetchResponse.httpError st bd)).1 =
        errorResult ("HubSpot API error: " ++ toString st ++ " - " ++ bd) ∧
      (invoke ⟨nm, args⟩ (fun _ => FetchResponse.httpError st bd)).2.length = 1) ∧
    (∀ api : Api, (invoke ⟨nm, args⟩ api).2.length ≤ 1) := by
  refine ⟨fun q => rfl, ?_, ?_⟩
  · intro hne
    have hf : ∀ q, hubspotRequest (fun _ => FetchResponse.httpError st bd) q =
        Except.error ("HubSpot API error: " ++ toString st ++ " - " ++ bd) := fun q => rfl
    rcases runTool_fail nm args _ _ hf with h | ⟨h1, q, h2⟩
    · exact absurd (by rw [invoke_snd]; exact h) hne
    · exact ⟨invoke_fst_error nm args _ _ h1, by rw [invoke_snd, h2]; rfl⟩
  · intro api
    rcases runTool_reqs nm args api with h | ⟨q, h⟩ <;> rw [invoke_snd, h] <;> simp


/-- Witness for C4: a 401 with body "unauthorized" on a contact search. -/
theorem claim_C4_witness :
    (invoke ⟨"search_contacts", [("query", Json.str "q")]⟩
        (fun _ => FetchResponse.httpError 401 "unauthorized")).1 =
      errorResult ("HubSpot API error: " ++ toString 401 ++ " - " ++ "unauthorized") ∧
    (invoke ⟨"search_contacts", [("query", Json.str "q")]⟩
        (fun _ => FetchResponse.httpError 401 "unauthorized")).2.length = 1 :=
  (claim_C4 "search_contacts" [("query", Json.str "q")] 401 "unauthorized").2.1
    (fun h => absurd (congrArg List.length h) (by decide))

/-- Claim C5, counterexample: the direct fetch of `get_contact` goes to
`/crm/v3/objects/contacts/{id}`, not to the path `/crm/v3/objects/{id}` the
claim states. -/
theorem claim_C5_counterexample :
    (invoke ⟨"get_contact", [("contact_id", Json.str "12345")]⟩ resultsApi).2 =
      [{ method := "GET",
         url := "https://api.hubapi.com/crm/v3/objects/contacts/12345?properties=firstname,lastname,email,phone,company,lifecyclestage",
         body := none }] ∧
    ("https://api.hubapi.com/crm/v3/objects/contacts/12345?properties=firstname,lastname,email,phone,company,lifecyclestage" : String) ≠
      "https://api.hubapi.com" ++
        "/crm/v3/objects/12345?properties=firstname,lastname,email,phone,company,lifecyclestage" := by
  constructor
  · rfl
  · decide

/-- Claim C5 as amended: the by-id branch issues a GET to
`/crm/v3/objects/contacts/{id}?properties=...` relative to the fixed base
address, and the query string is the six property names comma-joined. -/
theorem claim_C5_amended (args : Args) (api : Api) (s : String)
    (hcid : alookup args "contact_id" = some (Json.str s))
    (hat : s.toList.contains '@' = false) :
    (invoke ⟨"get_contact", args⟩ api).2 =
      [{ method := "GET",
         url := HUBSPOT_API_BASE ++ ("/crm/v3/objects/contacts/" ++ s ++
           "?properties=firstname,lastname,email,phone,company,lifecyclestage"),
         body := none }] ∧
    ("?properties=firstname,lastname,email,phone,company,lifecyclestage" : String) =
      "?properties=" ++ String.intercalate "," contactProps6 := by
  constructor
  · rw [invoke_snd]
    have hat2 : ¬ ('@' ∈ s.data) := by simpa using hat
    simp [runTool, runGetContact, hcid, includesAt, hat2, getContactByIdReq, mkRequest,
      jsToString_str]
  · decide

/-- Witness for the amended C5 at id "12345". -/
theorem claim_C5_amended_witness :
    (invoke ⟨"get_contact", [("contact_id", Json.str "12345")]⟩ resultsApi).2 =
      [{ method := "GET",
         url := HUBSPOT_API_BASE ++ ("/crm/v3/objects/contacts/" ++ "12345" ++
           "?properties=firstname,lastname,email,phone,company,lifecyclestage"),
         body := none }] :=
  (claim_C5_amended [("contact_id", Json.str "12345")] resultsApi "12345" rfl (by decide)).1

/-- Claim C6: a contact id containing "@" triggers the exact-match email
search (one EQ filter on email, limit 1, the six properties), whose first
result is passed through — including the undefined of an empty result list,
which stays a non-error result; an id without "@" triggers the direct fetch
by id with the same six properties. -/
theorem claim_C6 (args : Args) (api : Api) (s : String)
    (hcid : alookup args "contact_id" = some (Json.str s)) :
    (s.toList.contains '@' = true →
      (invoke ⟨"get_contact", args⟩ api).2 =
        [{ method := "POST",
           url := HUBSPOT_API_BASE ++ "/crm/v3/objects/contacts/search",
           body := some (Json.obj [
             ("filterGroups", Json.arr [Json.obj [("filters", Json.arr [Json.obj [
               ("propertyName", Json.str "email"),
               ("operator", Json.str "EQ"),
               ("value", Json.str s)]])]]),
             ("properties", Json.arr (contactProps6.map Json.str)),
             ("limit", Json.num 1)]) }] ∧
      (∀ xs : List Json,
        api (getContactEmailReq (Json.str s)) =
          FetchResponse.success (Json.obj [("results", Json.arr xs)]) →
        (invoke ⟨"get_contact", args⟩ api).1 = okResult (xs.head?.map stringify))) ∧
    (s.toList.contains '@' = false →
      (invoke ⟨"get_contact", args⟩ api).2 =
        [{ method := "GET",
           url := HUBSPOT_API_BASE ++ ("/crm/v3/objects/contacts/" ++ s ++
             "?properties=firstname,lastname,email,phone,company,lifecyclestage"),
           body := none }]) := by
  constructor
  · intro hat
    have hat2 : '@' ∈ s.data := by simpa using hat
    constructor
    · rw [invoke_snd]
      simp [runTool, runGetContact, hcid, includesAt, hat2, getContactEmailReq, mkRequest,
        filterGroup1, filterJson, mkObj, strArr]
    · intro xs hxs
      have hrun : (runTool "get_contact" args api).1 =
          Except.ok (okResult (xs.head?.map stringify)) := by
        simp [runTool, runGetContact, hcid, includesAt, hat2, hubspotRequest, hxs,
          jsGet, alookup, jsIndex0]
      exact invoke_fst_ok _ _ _ _ hrun
  · intro hat
    have hat2 : ¬ ('@' ∈ s.data) := by simpa using hat
    rw [invoke_snd]
    simp [runTool, runGetContact, hcid, includesAt, hat2, getContactByIdReq, mkRequest,
      jsToString_str]

/-- Witness for C6 at the spec examples "a@b.com" (email search, no match,
passed through) and "12345" (direct fetch). -/
theorem claim_C6_witness :
    ((invoke ⟨"get_contact", [("contact_id", Json.str "a@b.com")]⟩ resultsApi).2 =
      [{ method := "POST",
         url := HUBSPOT_API_BASE ++ "/crm/v3/objects/contacts/search",
         body := some (Json.obj [
           ("filterGroups", Json.arr [Json.obj [("filters", Json.arr [Json.obj [
             ("propertyName", Json.str "email"),
             ("operator", Json.str "EQ"),
             ("value", Json.str "a@b.com")]])]]),
           ("properties", Json.arr (contactProps6.map Json.str)),
           ("limit", Json.num 1)]) }] ∧
     (invoke ⟨"get_contact", [("contact_id", Json.str "a@b.com")]⟩ resultsApi).1 =
       okResult none) ∧
    (invoke ⟨"get_contact", [("contact_id", Json.str "12345")]⟩ resultsApi).2 =
      [{ method := "GET",
         url := HUBSPOT_API_BASE ++ ("/crm/v3/objects/contacts/" ++ "12345" ++
           "?properties=firstname,lastname,email,phone,company,lifecyclestage"),
         body := none }] := by
  have h1 := (claim_C6 [("contact_id", Json.str "a@b.com")] resultsApi "a@b.com" rfl).1 (by decide)
  have h2 := (claim_C6 [("contact_id", Json.str "12345")] resultsApi "12345" rfl).2 (by decide)
  exact ⟨⟨h1.1, (h1.2 [] rfl).trans (by rfl)⟩, h2⟩

/-- The property-set keys of the serialized body of a create request. -/
def reqPropKeys (r : HttpRequest) : List String :=
  match r.body with
  | some (Json.obj fs) =>
    match alookup fs "properties" with
    | some (Json.obj ps) => ps.map Prod.fst
    | _ => []
  | _ => []

/-- Claim C7, counterexample: a `create_deal` invocation without the three
required arguments sends a property set holding only `pipeline`, so the sent
set does not always contain all four whitelisted fields. -/
theorem claim_C7_counterexample :
    ((invoke ⟨"create_deal", [("foo", Json.str "bar")]⟩ resultsApi).2.map reqPropKeys) =
      [["pipeline"]] ∧
    ("dealname" : String) ∉ (["pipeline"] : List String) := by
  constructor
  · rfl
  · decide

/-- Claim C7 as amended: the sent property set is always drawn from the
whitelist \x7bdealname, amount, dealstage, pipeline\x7d — any other argument
field, e.g. `foo`, never appears — with `pipeline` the literal "default" when
the argument is not supplied, and it holds exactly the four fields whenever
the three required arguments are supplied. -/
theorem claim_C7_amended :
    (∀ args api, (invoke ⟨"create_deal", args⟩ api).2 = [createDealReq args]) ∧
    (∀ (args : Args) (v1 v2 v3 : Json),
      alookup args "dealname" = some v1 →
      alookup args "amount" = some v2 →
      alookup args "dealstage" = some v3 →
      createDealReq args =
        { method := "POST",
          url := HUBSPOT_API_BASE ++ "/crm/v3/objects/deals",
          body := some (Json.obj [("properties", Json.obj [
            ("dealname", v1), ("amount", v2), ("dealstage", v3),
            ("pipeline", jsOrD (alookup args "pipeline") (Json.str "default"))])]) }) ∧
    (∀ args : Args, alookup args "pipeline" = none →
      jsOrD (alookup args "pipeline") (Json.str "default") = Json.str "default") ∧
    (∀ args : Args, reqPropKeys (createDealReq args) ⊆
      ["dealname", "amount", "dealstage", "pipeline"]) ∧
    (∀ args : Args, ("foo" : String) ∉ reqPropKeys (createDealReq args)) := by
  have hkeys : ∀ args : Args, reqPropKeys (createDealReq args) ⊆
      ["dealname", "amount", "dealstage", "pipeline"] := by
    intro args
    rcases h1 : alookup args "dealname" with _ | v1 <;>
      rcases h2 : alookup args "amount" with _ | v2 <;>
        rcases h3 : alookup args "dealstage" with _ | v3 <;>
          simp [reqPropKeys, createDealReq, mkRequest, mkObj, alookup, h1, h2, h3]
  refine ⟨?_, ?_, ?_, hkeys, ?_⟩
  · intro args api
    rw [invoke_snd]
    rfl
  · intro args v1 v2 v3 h1 h2 h3
    simp [createDealReq, mkRequest, mkObj, h1, h2, h3]
  · intro args h
    simp [jsOrD, h]
  · intro args hfoo
    have := hkeys args hfoo
    simp at this

/-- Witness for the amended C7 at a fully specified deal and at the
extra-field example. -/
theorem claim_C7_amended_witness :
    (invoke ⟨"create_deal", [("foo", Json.str "bar")]⟩ resultsApi).2 =
      [createDealReq [("foo", Json.str "bar")]] ∧
    createDealReq [("dealname", Json.str "D"), ("amount", Json.num 100),
        ("dealstage", Json.str "won")] =
      { method := "POST",
        url := HUBSPOT_API_BASE ++ "/crm/v3/objects/deals",
        body := some (Json.obj [("properties", Json.obj [
          ("dealname", Json.str "D"), ("amount", Json.num 100), ("dealstage", Json.str "won"),
          ("pipeline", jsOrD (alookup [("dealname", Json.str "D"), ("amount", Json.num 100),
            ("dealstage", Json.str "won")] "pipeline") (Json.str "default"))])]) } ∧
    ("foo" : String) ∉ reqPropKeys (createDealReq [("foo", Json.str "bar")]) :=
  ⟨claim_C7_amended.1 [("foo", Json.str "bar")] resultsApi,
   claim_C7_amended.2.1 _ _ _ _ rfl rfl rfl,
   claim_C7_amended.2.2.2.2 [("foo", Json.str "bar")]⟩

/-- Claim C8: each of the six advertised tools, invoked with a minimally
valid argument set against a well-formed successful upstream response,
produces a non-error result. -/
theorem claim_C8 :
    (invoke ⟨"search_contacts", [("query", Json.str "test")]⟩ successApi).1.isError = false ∧
    (invoke ⟨"get_contact", [("contact_id", Json.str "12345")]⟩ successApi).1.isError = false ∧
    (invoke ⟨"create_contact", [("email", Json.str "test@example.com")]⟩ successApi).1.isError = false ∧
    (invoke ⟨"search_deals", []⟩ successApi).1.isError = false ∧
    (invoke ⟨"create_deal", [("dealname", Json.str "D"), ("amount", Json.num 100),
      ("dealstage", Json.str "won")]⟩ successApi).1.isError = false ∧
    (invoke ⟨"get_pipeline_summary", []⟩ successApi).1.isError = false :=
  ⟨rfl, rfl, rfl, rfl, rfl, rfl⟩

end HubspotMCP
